import Mathlib

/-!
Verification of the rClone chunking script (`rClone_chunking.py`).

Shallow embedding conventions:
* file contents are `List ℕ` (one `ℕ` per byte), file sizes are `ℕ`;
* the configured limits are exact rationals (`ℚ`): the script computes
  `max_zip_size = max_single_file_size / 100 * 80` with Python float
  arithmetic, which is exact for the integral values involved here, so it
  is embedded as exact rational arithmetic;
* `math.ceil` of a Python float division is embedded as the exact rational
  ceiling `⌈·⌉ : ℚ → ℤ`;
* a directory is a listing `List (String × ℕ)` of (file name, size), and a
  file store is a partial map `String → Option (List ℕ)`;
* filesystem primitives (`os.remove`, reads, writes) are assumed to
  succeed; the external `rclone deletefile` call is an oracle
  `String → Bool` whose result the script discards (`os.system`'s return
  value is never inspected), so the embedding takes the oracle and
  ignores it, exactly as the source does.
-/

/-- Configured maximum single file size in bytes (`max_single_file_size`,
line 37 of the script; operator-configurable, default 1 200 000 000). -/
def max_single_file_size : ℕ := 1200000000

/-- Embedding of `max_zip_size = max_single_file_size / 100 * 80`
(line 102): the 80%-of-threshold constant used by the verification tests,
as a function of the configured maximum single file size. -/
def maxZipOf (maxSingle : ℕ) : ℚ := (maxSingle : ℚ) / 100 * 80

/-- The script's default `max_zip_size` value. -/
def max_zip_size : ℚ := maxZipOf max_single_file_size

/-- Name of chunk number `i`: the script sets `OutFile = InputFile + ".00"`
(line 271) and each part is `OutFile + str(partNo)` (lines 303 and 317),
i.e. `InputFile ++ ".00" ++ toString partNo`. -/
def partName (inputFile : String) (i : ℕ) : String :=
  inputFile ++ ".00" ++ toString i

/-- Fuel-driven core of the `FileSpliter.Split` read loop (lines 292-308):
repeatedly read `CHUNK_SIZE` bytes; an empty read ends the loop. Fuel
`data.length` always suffices, since every productive iteration consumes
at least one byte when `CHUNK_SIZE > 0`, and a zero-size read stops
immediately. -/
def chunkifyAux : ℕ → ℕ → List ℕ → List (List ℕ)
  | _, 0, _ => []
  | c, fuel + 1, data =>
    let buf := data.take c
    if buf = [] then [] else buf :: chunkifyAux c fuel (data.drop c)

/-- The sequence of chunk contents the `Split` loop writes for a source
with contents `data` and chunk size `c`. -/
def chunkify (c : ℕ) (data : List ℕ) : List (List ℕ) :=
  chunkifyAux c data.length data

namespace FileSpliter

/-- Embedding of `FileSpliter.Prepare` (lines 277-286): `Parts = 1` when
`CHUNK_SIZE >= FileSize`, else `math.ceil(FileSize / CHUNK_SIZE)`.
`Prepare` only reads the file size and writes the object's own fields: it
is a pure computation with no effect on chunk files, which the embedding
reflects by being a plain function. -/
def Prepare (FileSize CHUNK_SIZE : ℕ) : ℤ :=
  if CHUNK_SIZE ≥ FileSize then 1
  else ⌈(FileSize : ℚ) / (CHUNK_SIZE : ℚ)⌉

/-- Embedding of `FileSpliter.Split` (lines 288-309): fails (returns
`False`) when `FileSize == 0`; otherwise writes chunk `k` (counting from
1, since `CurrentPartNo` is initialised to 1 on line 274) under the name
`InputFile ++ ".00" ++ toString k`. The result is the list of
(part name, part contents) pairs written, in order. -/
def Split (InputFile : String) (data : List ℕ) (CHUNK_SIZE : ℕ) :
    Option (List (String × List ℕ)) :=
  if data.length = 0 then none
  else some ((chunkify CHUNK_SIZE data).enum.map
    (fun p => (partName InputFile (p.1 + 1), p.2)))

/-- Core loop of `FileSpliter.Rebuild` (lines 311-331): starting from part
number `i` (`Rebuild` resets `CurrentPartNo = 0` on line 312), read `k`
further parts named `OutFile + str(partNo)` from the store `fs`. A part
that is missing or empty makes the whole call fail (lines 318-320).
Returns the concatenated contents together with the list of part names
consumed — each of which `Rebuild` passes to `os.remove` (line 328). -/
def RebuildAux (base : String) (fs : String → Option (List ℕ)) :
    ℕ → ℕ → Option (List ℕ × List String)
  | _, 0 => some ([], [])
  | i, k + 1 =>
    match fs (partName base i) with
    | none => none
    | some buf =>
      if buf = [] then none
      else
        match RebuildAux base fs (i + 1) k with
        | none => none
        | some (rest, names) => some (buf ++ rest, partName base i :: names)

/-- Embedding of `FileSpliter.Rebuild` (lines 311-331): reads parts
numbered `0, 1, …, Parts - 1` (the loop condition is
`CurrentPartNo < self.Parts` with `CurrentPartNo` starting at 0) and
removes each one after reading it. -/
def Rebuild (InputFile : String) (Parts : ℕ)
    (fs : String → Option (List ℕ)) : Option (List ℕ × List String) :=
  RebuildAux InputFile fs 0 Parts

end FileSpliter

/-- The file store after applying `os.remove` to every name in `names`
(as `Rebuild` does to each part it has read, line 328). -/
def removeAll (fs : String → Option (List ℕ)) (names : List String) :
    String → Option (List ℕ) :=
  fun n => if n ∈ names then none else fs n

/-- A file store holding exactly the named files of `files`. -/
def fsOfFiles (files : List (String × List ℕ)) : String → Option (List ℕ) :=
  fun n => (files.find? (fun p => p.1 == n)).map Prod.snd

/-- Modelled from the spec: a 3-digit left-zero-padded decimal ordinal, as
required by the sidecar naming scheme of §6 ("ordinals start at 1, are
left-zero-padded" with a "3-digit-ordinal" suffix). Used only to compare
the source's actual naming against the spec's words. -/
def pad3 (n : ℕ) : String :=
  if n < 10 then "00" ++ toString n
  else if n < 100 then "0" ++ toString n
  else toString n

/-- Accumulator state of `scan_for_chunks`: the globals `file_chunks`,
`sum_chunk_size` and `chunk_number` (lines 479-484). -/
structure ScanState where
  file_chunks : List String
  sum_chunk_size : ℕ
  chunk_number : ℕ
deriving DecidableEq

/-- Occurrence of `pat` as a contiguous sub-list. Executable helper for
the glob pattern `file*.zip.*`. -/
def occursWithin (pat : List Char) : List Char → Bool
  | [] => List.isPrefixOf pat []
  | c :: cs => List.isPrefixOf pat (c :: cs) || occursWithin pat cs

/-- Embedding of the chunk-name match on line 490:
`fnmatch(candidate, file + "*.zip.*") or fnmatch(candidate, file + ".*")`.
The first pattern holds exactly when `name = file ++ a ++ ".zip." ++ b`
for some `a b`, the second exactly when `name = file ++ "." ++ b`.
The embedding treats the file name itself as literal text (no glob
metacharacters in `file`), matching `fnmatch` on POSIX for such names. -/
def chunkMatch (file name : String) : Bool :=
  (List.isPrefixOf file.data name.data
      && occursWithin ".zip.".data (name.data.drop file.data.length))
    || List.isPrefixOf (file.data ++ ['.']) name.data

/-- One iteration of the `scan_for_chunks` loop body (lines 486-496):
append a matching candidate, add its size, bump the count. -/
def scanStep (file : String) (st : ScanState) (c : String × ℕ) : ScanState :=
  if chunkMatch file c.1 then
    { file_chunks := st.file_chunks ++ [c.1]
      sum_chunk_size := st.sum_chunk_size + c.2
      chunk_number := st.chunk_number + 1 }
  else st

/-- Embedding of `scan_for_chunks` (lines 477-502). The function begins by
resetting the three global accumulators to `0` / `[]` (lines 482-484);
the `_prev` argument stands for whatever values the globals held from the
previous item and is (faithfully) ignored. `listing` is the directory
listing of `rclone_folder_with_chunks` with file sizes. -/
def scan_for_chunks (_prev : ScanState) (listing : List (String × ℕ))
    (file : String) : ScanState :=
  listing.foldl (scanStep file) { file_chunks := [], sum_chunk_size := 0, chunk_number := 0 }

/-- Result of `verify_chunk_integrity`: whether the run aborted via
`critical_failure` (the only modelled cause is indexing `file_chunks[0]`
on an empty list, line 539), the final value of
`file_already_chunked_verified` (reset to 0 by the main loop, line 712),
and the chunk names removed locally (line 556) and issued for remote
deletion (line 564). -/
structure VerifyOutcome where
  aborted : Bool
  verified : ℕ
  localDeleted : List String
  remoteIssued : List String
deriving DecidableEq

/-- Embedding of `verify_chunk_integrity` (lines 504-576). Test 1 compares
`chunk_number` with `math.ceil(file_size / max_zip_size)` (line 516);
test 2 compares `sum_chunk_size` with `file_size` (line 528); test 3
tolerates `|first chunk size - max_zip_size| ≤ 1` (lines 539-542). If
fewer than three tests passed, every chunk in `file_chunks` is removed
locally and a remote `rclone deletefile` is issued for it (lines
549-568); the `_remote` oracle gives each remote deletion's outcome,
which the script never inspects (`os.system`'s return value is dropped
and any exception is caught and logged on line 565-566), so the outcome
does not depend on it. -/
def verify_chunk_integrity (file_size : ℕ) (max_zip : ℚ) (st : ScanState)
    (getsize : String → ℕ) (_remote : String → Bool) : VerifyOutcome :=
  match st.file_chunks with
  | [] => { aborted := true, verified := 0, localDeleted := [], remoteIssued := [] }
  | c0 :: _ =>
    let verified1 : ℕ :=
      if (st.chunk_number : ℤ) = ⌈(file_size : ℚ) / max_zip⌉ then 1 else 0
    let verified2 : ℕ := verified1 + (if st.sum_chunk_size = file_size then 1 else 0)
    let d : ℚ := (getsize c0 : ℚ) - max_zip
    let verified3 : ℕ := verified2 + (if d > 1 ∨ d < -1 then 0 else 1)
    { aborted := false, verified := verified3
      localDeleted := if verified3 < 3 then st.file_chunks else []
      remoteIssued := if verified3 < 3 then st.file_chunks else [] }

/-- What the main loop finally does with one file. -/
inductive TransferAction
  | uploadChunks (chunks : List String)
  | uploadWhole
  | skipped
deriving DecidableEq

/-- Observable outcome of processing one file in the main loop. -/
structure FileOutcome where
  aborted : Bool
  localDeleted : List String
  remoteIssued : List String
  didResplit : Bool
  action : TransferAction
deriving DecidableEq

/-- Size lookup (`os.path.getsize`) against a directory listing. -/
def getsizeIn (listing : List (String × ℕ)) (n : String) : ℕ :=
  ((listing.find? (fun c => c.1 == n)).map Prod.snd).getD 0

/-- Embedding of the per-file body of the main loop (lines 704-786).

* `chunkExists` is the chunk-existence test on line 735. In the source it
  reads `os.path.isfile(path + ".001" or os.path.isfile(path + ".zip.001"))`:
  the `or` sits inside the argument of the outer `os.path.isfile`, and
  since `path + ".001"` is a non-empty (truthy) string, the whole test is
  `os.path.isfile(path + ".001")` — only the literal name
  `file ++ ".001"` is ever checked.
* If that test passes, the script scans and verifies (lines 740-743,
  including the verifier's deletion block).
* For `file_size > max_single_file_size` (line 746) with fewer than three
  verification passes the file is zipped (unless already `.zip`) and
  split (`didResplit`), then re-scanned against the post-split listing
  `listingAfter` (line 774); the (re-)scanned chunks are uploaded.
* For `file_size < max_single_file_size` (line 783) the file itself is
  uploaded. A size exactly equal to the threshold matches neither branch.
-/
def processFile (prev : ScanState) (file : String) (file_size maxSingle : ℕ)
    (listing listingAfter : List (String × ℕ)) (remote : String → Bool) :
    FileOutcome :=
  let chunkExists := listing.any (fun c => c.1 == file ++ ".001")
  let st := scan_for_chunks prev listing file
  let v :=
    if chunkExists then
      verify_chunk_integrity file_size (maxZipOf maxSingle) st (getsizeIn listing) remote
    else
      { aborted := false, verified := 0, localDeleted := [], remoteIssued := [] }
  if v.aborted then
    { aborted := true, localDeleted := [], remoteIssued := []
      didResplit := false, action := .skipped }
  else if maxSingle < file_size then
    if v.verified < 3 then
      { aborted := false, localDeleted := v.localDeleted, remoteIssued := v.remoteIssued
        didResplit := true
        action := .uploadChunks (scan_for_chunks st listingAfter file).file_chunks }
    else
      { aborted := false, localDeleted := v.localDeleted, remoteIssued := v.remoteIssued
        didResplit := false, action := .uploadChunks st.file_chunks }
  else if file_size < maxSingle then
    { aborted := false, localDeleted := v.localDeleted, remoteIssued := v.remoteIssued
      didResplit := false, action := .uploadWhole }
  else
    { aborted := false, localDeleted := v.localDeleted, remoteIssued := v.remoteIssued
      didResplit := false, action := .skipped }

/-! ### Helper lemmas -/

theorem string_append_assoc (a b c : String) : a ++ b ++ c = a ++ (b ++ c) := by
  apply String.ext
  simp [List.append_assoc]

theorem isPrefixOf_append_left (l m r : List Char) :
    List.isPrefixOf (l ++ m) (l ++ r) = List.isPrefixOf m r := by
  induction l with
  | nil => rfl
  | cons c cs ih => simp [List.isPrefixOf, ih]

theorem chunkMatch_first_chunk (file : String) :
    chunkMatch file (file ++ ".001") = true := by
  have h2 : List.isPrefixOf (file.data ++ ['.']) ((file ++ ".001").data) = true := by
    have h1 : (".001" : String).data = ['.', '0', '0', '1'] := rfl
    rw [String.data_append, h1, isPrefixOf_append_left]
    rfl
  unfold chunkMatch
  rw [h2, Bool.or_true]

theorem scan_foldl_spec (file : String) (listing : List (String × ℕ)) (st : ScanState) :
    listing.foldl (scanStep file) st =
      { file_chunks := st.file_chunks ++ (listing.filter (fun c => chunkMatch file c.1)).map Prod.fst
        sum_chunk_size :=
          st.sum_chunk_size + ((listing.filter (fun c => chunkMatch file c.1)).map Prod.snd).sum
        chunk_number := st.chunk_number + (listing.filter (fun c => chunkMatch file c.1)).length } := by
  induction listing generalizing st with
  | nil => simp
  | cons c cs ih =>
    simp only [List.foldl_cons, ih, List.filter_cons]
    by_cases h : chunkMatch file c.1
    · simp [scanStep, h, List.append_assoc]
      omega
    · simp [scanStep, h]

theorem scan_file_chunks (prev : ScanState) (listing : List (String × ℕ)) (file : String) :
    (scan_for_chunks prev listing file).file_chunks
      = (listing.filter (fun c => chunkMatch file c.1)).map Prod.fst := by
  unfold scan_for_chunks
  rw [scan_foldl_spec]
  simp

theorem scan_nonempty_of_chunkExists (prev : ScanState) (listing : List (String × ℕ))
    (file : String) (h : (listing.any (fun c => c.1 == file ++ ".001")) = true) :
    (scan_for_chunks prev listing file).file_chunks ≠ [] := by
  obtain ⟨c, hmem, hc⟩ := List.any_eq_true.mp h
  have hceq : c.1 = file ++ ".001" := by simpa using hc
  have hmatch : chunkMatch file c.1 = true := by
    rw [hceq]; exact chunkMatch_first_chunk file
  intro hnil
  rw [scan_file_chunks] at hnil
  have hcf : c ∈ listing.filter (fun c => chunkMatch file c.1) :=
    List.mem_filter.mpr ⟨hmem, hmatch⟩
  have : c.1 ∈ (listing.filter (fun c => chunkMatch file c.1)).map Prod.fst :=
    List.mem_map_of_mem Prod.fst hcf
  rw [hnil] at this
  exact absurd this (List.not_mem_nil c.1)

theorem verify_aborted_iff (file_size : ℕ) (max_zip : ℚ) (st : ScanState)
    (getsize : String → ℕ) (remote : String → Bool) :
    (verify_chunk_integrity file_size max_zip st getsize remote).aborted
      = st.file_chunks.isEmpty := by
  rcases st with ⟨fc, s, n⟩
  cases fc with
  | nil => rfl
  | cons c0 rest => rfl

/-! ### Claim theorems -/

/-- C10: every call to `scan_for_chunks` resets its accumulators before
scanning — the result is independent of any previous state of the globals
— and on return `chunk_number` equals the length of `file_chunks`, which
lists exactly the matched artifacts, while `sum_chunk_size` is the sum of
the sizes of exactly those artifacts. The result depends only on the
directory listing and the current file name. -/
theorem C10_scan_resets_and_totals_match (prev prev2 : ScanState)
    (listing : List (String × ℕ)) (file : String) :
    scan_for_chunks prev listing file = scan_for_chunks prev2 listing file
    ∧ (scan_for_chunks prev listing file).chunk_number
        = (scan_for_chunks prev listing file).file_chunks.length
    ∧ (scan_for_chunks prev listing file).file_chunks
        = (listing.filter (fun c => chunkMatch file c.1)).map Prod.fst
    ∧ (scan_for_chunks prev listing file).sum_chunk_size
        = ((listing.filter (fun c => chunkMatch file c.1)).map Prod.snd).sum := by
  refine ⟨rfl, ?_, scan_file_chunks prev listing file, ?_⟩
  · unfold scan_for_chunks
    rw [scan_foldl_spec]
    simp
  · unfold scan_for_chunks
    rw [scan_foldl_spec]
    simp

/-- C4: for a non-empty scanned chunk set (the script indexes
`file_chunks[0]`, so an empty set aborts instead of producing a verdict)
and a positive verification chunk size, the verdict is `VALID`
(`file_already_chunked_verified = 3`, starting from the 0 the main loop
reset it to) if and only if all three checks pass: the chunk count equals
the expected count `⌈file_size / max_zip_size⌉`, the chunk sizes sum to
the source file size exactly, and the first chunk's size is within 1 byte
of the configured verification chunk size (`max_zip_size`). Any failing
check therefore makes the verdict `INVALID`. -/
theorem C4_valid_iff_all_three_checks (file_size : ℕ) (max_zip : ℚ) (st : ScanState)
    (getsize : String → ℕ) (remote : String → Bool) (c0 : String) (rest : List String)
    (hchunks : st.file_chunks = c0 :: rest) (_hmz : 0 < max_zip) :
    (verify_chunk_integrity file_size max_zip st getsize remote).verified = 3 ↔
      ((st.chunk_number : ℤ) = ⌈(file_size : ℚ) / max_zip⌉
        ∧ st.sum_chunk_size = file_size
        ∧ |(getsize c0 : ℚ) - max_zip| ≤ 1) := by
  rcases st with ⟨fc, s, n⟩
  simp only at hchunks
  subst hchunks
  have h3iff : ¬((getsize c0 : ℚ) - max_zip > 1 ∨ (getsize c0 : ℚ) - max_zip < -1)
      ↔ |(getsize c0 : ℚ) - max_zip| ≤ 1 := by
    rw [abs_le]
    push_neg
    exact and_comm
  rw [← h3iff]
  show ((if (n : ℤ) = ⌈(file_size : ℚ) / max_zip⌉ then 1 else 0)
        + (if s = file_size then 1 else 0)
        + (if (getsize c0 : ℚ) - max_zip > 1 ∨ (getsize c0 : ℚ) - max_zip < -1 then 0 else 1)
        = 3) ↔ _
  split_ifs with h1 h2 h3 <;> simp_all

/-- C4 witness: a concrete non-empty chunk set with a positive chunk size
on which the equivalence is instantiated. -/
theorem C4_valid_iff_all_three_checks_witness :
    ((⟨["c1"], 8, 1⟩ : ScanState).file_chunks = "c1" :: [] ∧ (0 : ℚ) < 8)
    ∧ ((verify_chunk_integrity 8 8 ⟨["c1"], 8, 1⟩ (fun _ => 8) (fun _ => true)).verified = 3 ↔
        (((⟨["c1"], 8, 1⟩ : ScanState).chunk_number : ℤ) = ⌈((8 : ℕ) : ℚ) / 8⌉
          ∧ (⟨["c1"], 8, 1⟩ : ScanState).sum_chunk_size = 8
          ∧ |((8 : ℕ) : ℚ) - 8| ≤ 1)) :=
  ⟨⟨rfl, by norm_num⟩,
    C4_valid_iff_all_three_checks 8 8 ⟨["c1"], 8, 1⟩ (fun _ => 8) (fun _ => true)
      "c1" [] rfl (by norm_num)⟩

/-- C8: when verification fails (`file_already_chunked_verified < 3`),
every chunk of the scanned set is removed from local storage and a remote
delete is issued for the same chunk name; the outcome does not depend on
the remote deletions' results in any way (the script discards
`os.system`'s return value and catches any exception from the remote
delete, line 565), so a remote-delete failure never aborts the run. -/
theorem C8_invalidate_deletes_all_and_remote_failure_is_recoverable
    (file_size : ℕ) (max_zip : ℚ) (st : ScanState) (getsize : String → ℕ)
    (remote remote2 : String → Bool) (c0 : String) (rest : List String)
    (hchunks : st.file_chunks = c0 :: rest)
    (hfail : (verify_chunk_integrity file_size max_zip st getsize remote).verified < 3) :
    (verify_chunk_integrity file_size max_zip st getsize remote).localDeleted = st.file_chunks
    ∧ (verify_chunk_integrity file_size max_zip st getsize remote).remoteIssued = st.file_chunks
    ∧ (verify_chunk_integrity file_size max_zip st getsize remote).aborted = false
    ∧ verify_chunk_integrity file_size max_zip st getsize remote
        = verify_chunk_integrity file_size max_zip st getsize remote2 := by
  rcases st with ⟨fc, s, n⟩
  simp only at hchunks
  subst hchunks
  exact ⟨if_pos hfail, if_pos hfail, rfl, rfl⟩

/-- C8 witness: a concrete chunk set failing the total-size check (sum 7
against file size 8), with a remote-delete oracle that fails on every
chunk; the chunk is still deleted locally, the remote delete is issued,
and the outcome equals the one under an always-succeeding oracle. -/
theorem C8_invalidate_witness :
    ((⟨["c1"], 7, 1⟩ : ScanState).file_chunks = "c1" :: []
      ∧ (verify_chunk_integrity 8 8 ⟨["c1"], 7, 1⟩ (fun _ => 8) (fun _ => false)).verified < 3)
    ∧ ((verify_chunk_integrity 8 8 ⟨["c1"], 7, 1⟩ (fun _ => 8) (fun _ => false)).localDeleted
        = (⟨["c1"], 7, 1⟩ : ScanState).file_chunks
      ∧ (verify_chunk_integrity 8 8 ⟨["c1"], 7, 1⟩ (fun _ => 8) (fun _ => false)).remoteIssued
        = (⟨["c1"], 7, 1⟩ : ScanState).file_chunks
      ∧ (verify_chunk_integrity 8 8 ⟨["c1"], 7, 1⟩ (fun _ => 8) (fun _ => false)).aborted = false
      ∧ verify_chunk_integrity 8 8 ⟨["c1"], 7, 1⟩ (fun _ => 8) (fun _ => false)
          = verify_chunk_integrity 8 8 ⟨["c1"], 7, 1⟩ (fun _ => 8) (fun _ => true)) := by
  have hver : (verify_chunk_integrity 8 8 ⟨["c1"], 7, 1⟩ (fun _ => 8) (fun _ => false)).verified
      = 2 := by
    show (if ((1 : ℕ) : ℤ) = ⌈((8 : ℕ) : ℚ) / 8⌉ then 1 else 0)
        + (if (7 : ℕ) = 8 then 1 else 0)
        + (if ((8 : ℕ) : ℚ) - 8 > 1 ∨ ((8 : ℕ) : ℚ) - 8 < -1 then 0 else 1) = 2
    have hone : (((8 : ℕ) : ℚ) / 8) = 1 := by norm_num
    rw [hone, Int.ceil_one, if_pos (by norm_num), if_neg (by norm_num), if_neg (by norm_num)]
  have hfail : (verify_chunk_integrity 8 8 ⟨["c1"], 7, 1⟩ (fun _ => 8) (fun _ => false)).verified
      < 3 := by rw [hver]; norm_num
  exact ⟨⟨rfl, hfail⟩,
    C8_invalidate_deletes_all_and_remote_failure_is_recoverable 8 8 ⟨["c1"], 7, 1⟩
      (fun _ => 8) (fun _ => false) (fun _ => true) "c1" [] rfl hfail⟩

/-- C5: an item whose size exactly equals the configured threshold
`max_single_file_size` is neither chunked nor directly transferred: the
main loop tests `file_size > max_single_file_size` (line 746) and
`elif file_size < max_single_file_size` (line 783), so the equality case
falls through both branches and the file is silently skipped, contrary to
the claimed direct-transfer path. -/
theorem C5_threshold_sized_item_is_skipped_entirely (prev : ScanState) (file : String)
    (m : ℕ) (listing listingAfter : List (String × ℕ)) (remote : String → Bool) :
    (processFile prev file m m listing listingAfter remote).action = TransferAction.skipped
    ∧ (processFile prev file m m listing listingAfter remote).didResplit = false
    ∧ (processFile prev file m m listing listingAfter remote).aborted = false := by
  unfold processFile
  cases hce : listing.any (fun c => c.1 == file ++ ".001") with
  | false => simp [hce, lt_irrefl]
  | true =>
    have hne := scan_nonempty_of_chunkExists prev listing file hce
    have hab : (verify_chunk_integrity m (maxZipOf m) (scan_for_chunks prev listing file)
        (getsizeIn listing) remote).aborted = false := by
      rw [verify_aborted_iff]
      exact List.isEmpty_eq_false.mpr hne
    simp [hce, hab, lt_irrefl]

/-- C3 (failing evaluation): a source file `f` (not itself a `.zip`) of
size 16 with threshold 10 has an existing chunk set `f.zip.001`,
`f.zip.002` of sizes 8, 8 that the verifier itself would rate `VALID`
(all three tests pass, third conjunct). Yet the main loop's
chunk-existence test on line 735 checks only for the literal name
`f.001` (the `.zip.001` alternative sits uselessly inside the argument of
`os.path.isfile`, contradicting the debug message on line 733), so
verification is skipped and the file is re-zipped and re-split
(`didResplit = true`, first conjunct) instead of handing the existing
chunks to the transfer step. -/
theorem C3_valid_zip_form_chunkset_is_resplit_anyway :
    (processFile ⟨[], 0, 0⟩ "f" 16 10 [("f.zip.001", 8), ("f.zip.002", 8)] []
        (fun _ => true)).didResplit = true
    ∧ (verify_chunk_integrity 16 (maxZipOf 10)
        (scan_for_chunks ⟨[], 0, 0⟩ [("f.zip.001", 8), ("f.zip.002", 8)] "f")
        (getsizeIn [("f.zip.001", 8), ("f.zip.002", 8)]) (fun _ => true)).verified = 3 := by
  have hmz : maxZipOf 10 = 8 := by norm_num [maxZipOf]
  constructor
  · have hce : (([("f.zip.001", 8), ("f.zip.002", 8)] : List (String × ℕ)).any
        (fun c => c.1 == "f" ++ ".001")) = false := by decide
    simp [processFile, hce]
  · have hscan : scan_for_chunks ⟨[], 0, 0⟩ [("f.zip.001", 8), ("f.zip.002", 8)] "f"
        = ⟨["f.zip.001", "f.zip.002"], 16, 2⟩ := by decide
    have hgs : getsizeIn [("f.zip.001", 8), ("f.zip.002", 8)] "f.zip.001" = 8 := by decide
    rw [hscan, hmz]
    show (if ((2 : ℕ) : ℤ) = ⌈((16 : ℕ) : ℚ) / 8⌉ then 1 else 0)
        + (if (16 : ℕ) = 16 then 1 else 0)
        + (if (getsizeIn [("f.zip.001", 8), ("f.zip.002", 8)] "f.zip.001" : ℚ) - 8 > 1
              ∨ (getsizeIn [("f.zip.001", 8), ("f.zip.002", 8)] "f.zip.001" : ℚ) - 8 < -1
            then 0 else 1) = 3
    rw [hgs]
    have hceil : (⌈((16 : ℕ) : ℚ) / 8⌉ : ℤ) = 2 := by
      rw [Int.ceil_eq_iff]
      constructor <;> norm_num
    have h1 : (((2 : ℕ) : ℤ) = ⌈((16 : ℕ) : ℚ) / 8⌉) := by rw [hceil]; norm_num
    have h3 : ¬(((8 : ℕ) : ℚ) - 8 > 1 ∨ ((8 : ℕ) : ℚ) - 8 < -1) := by norm_num
    rw [if_pos h1, if_pos rfl, if_neg h3]

/-- Directory listing produced by splitting a 25-byte already-`.zip`
source with `CHUNK_SIZE = max_single_file_size = 10`, as `chunk_zip_file`
does (line 364). -/
def freshSplitListing : List (String × ℕ) :=
  ((FileSpliter.Split "f.zip" (List.replicate 25 0) 10).getD []).map (fun p => (p.1, p.2.length))

/-- C2 (failing evaluation): chunks freshly produced by the split step
with the configured chunk size (threshold 10, source size 25, chunks of
sizes 10, 10, 5) immediately fail verification: `verify_chunk_integrity`
checks against `max_zip_size = 80%` of the threshold (8 here), so test 1
expects `⌈25/8⌉ = 4 ≠ 3` chunks and test 3 sees a first chunk of 10
against 8, beyond the 1-byte tolerance; only test 2 passes, and
`file_already_chunked_verified` reaches 1, not 3. -/
theorem C2_fresh_split_immediately_fails_verification :
    freshSplitListing = [("f.zip.001", 10), ("f.zip.002", 10), ("f.zip.003", 5)]
    ∧ (verify_chunk_integrity 25 (maxZipOf 10)
        (scan_for_chunks ⟨[], 0, 0⟩ freshSplitListing "f.zip")
        (getsizeIn freshSplitListing) (fun _ => true)).verified = 1 := by
  constructor
  · decide
  · have hscan : scan_for_chunks ⟨[], 0, 0⟩ freshSplitListing "f.zip"
        = ⟨["f.zip.001", "f.zip.002", "f.zip.003"], 25, 3⟩ := by decide
    have hgs : getsizeIn freshSplitListing "f.zip.001" = 10 := by decide
    have hmz : maxZipOf 10 = 8 := by norm_num [maxZipOf]
    rw [hscan, hmz]
    show (if ((3 : ℕ) : ℤ) = ⌈((25 : ℕ) : ℚ) / 8⌉ then 1 else 0)
        + (if (25 : ℕ) = 25 then 1 else 0)
        + (if (getsizeIn freshSplitListing "f.zip.001" : ℚ) - 8 > 1
              ∨ (getsizeIn freshSplitListing "f.zip.001" : ℚ) - 8 < -1
            then 0 else 1) = 1
    rw [hgs]
    have hceil : (⌈((25 : ℕ) : ℚ) / 8⌉ : ℤ) = 4 := by
      rw [Int.ceil_eq_iff]
      constructor <;> norm_num
    have h1 : ¬(((3 : ℕ) : ℤ) = ⌈((25 : ℕ) : ℚ) / 8⌉) := by rw [hceil]; norm_num
    have h3 : (((10 : ℕ) : ℚ) - 8 > 1 ∨ ((10 : ℕ) : ℚ) - 8 < -1) :=
      Or.inl (by norm_num)
    rw [if_neg h1, if_pos rfl, if_pos h3]

/-- File store left by splitting the one-byte source `f` into chunks of
size 1: a single part named `f.001`. -/
def fsAfterSplitSingle : String → Option (List ℕ) :=
  fsOfFiles ((FileSpliter.Split "f" [7] 1).getD [])

/-- C1 (failing evaluation): the round-trip law fails on every non-empty
input because `Split` numbers parts from 1 (writing `f.001`) while
`Rebuild` reads parts from 0 (looking for `f.000`). Concretely, for the
one-byte file `f` with chunk size 1, `Prepare` plans 1 part, `Split`
writes exactly `f.001`, and `Rebuild` over those very parts fails
(returns `False`) instead of reproducing the byte `7`. -/
theorem C1_round_trip_fails_part_numbering_off_by_one :
    FileSpliter.Split "f" [7] 1 = some [("f.001", [7])]
    ∧ FileSpliter.Prepare 1 1 = 1
    ∧ FileSpliter.Rebuild "f" 1 fsAfterSplitSingle = none :=
  ⟨by decide, by decide, by decide⟩

theorem rebuildAux_consumed_mem (base : String) (fs : String → Option (List ℕ)) :
    ∀ (k i : ℕ) (content : List ℕ) (names : List String),
      FileSpliter.RebuildAux base fs i k = some (content, names) →
      ∀ j, j < k → partName base (i + j) ∈ names := by
  intro k
  induction k with
  | zero =>
    intro i content names _ j hj
    exact absurd hj (Nat.not_lt_zero j)
  | succ k ih =>
    intro i content names h j hj
    unfold FileSpliter.RebuildAux at h
    split at h
    · exact absurd h (by simp)
    · split at h
      · exact absurd h (by simp)
      · split at h
        · exact absurd h (by simp)
        · rename_i buf hbuf rest names2 haux
          simp only [Option.some.injEq, Prod.mk.injEq] at h
          obtain ⟨hcontent, hnames⟩ := h
          cases j with
          | zero =>
            rw [← hnames, Nat.add_zero]
            exact List.mem_cons_self _ _
          | succ j =>
            have hj2 : j < k := by omega
            have hmem := ih (i + 1) rest names2 haux j hj2
            have harith : i + (j + 1) = (i + 1) + j := by omega
            rw [← hnames, harith]
            exact List.mem_cons_of_mem _ hmem

/-- C9: reassembly is destructive. Whenever `FileSpliter.Rebuild`
succeeds, every part file it consumed (parts `0 … Parts-1`) has been
passed to `os.remove`, so none of them remains in the resulting file
store: reassembly cannot serve as a non-destructive integrity probe. -/
theorem C9_rebuild_removes_every_consumed_part (base : String) (parts : ℕ)
    (fs : String → Option (List ℕ)) (content : List ℕ) (names : List String)
    (h : FileSpliter.Rebuild base parts fs = some (content, names)) :
    ∀ i, i < parts → removeAll fs names (partName base i) = none := by
  intro i hi
  have hmem : partName base (0 + i) ∈ names :=
    rebuildAux_consumed_mem base fs parts 0 content names h i hi
  rw [Nat.zero_add] at hmem
  unfold removeAll
  rw [if_pos hmem]

/-- File store holding the single (0-numbered) part `g.000`. -/
def fsOnePart : String → Option (List ℕ) :=
  fsOfFiles [("g.000", [5])]

/-- C9 witness: rebuilding one part from a store containing `g.000`
succeeds, consumes `g.000`, and afterwards that part is gone. -/
theorem C9_rebuild_removes_every_consumed_part_witness :
    (FileSpliter.Rebuild "g" 1 fsOnePart = some ([5], ["g.000"]) ∧ 0 < 1)
    ∧ removeAll fsOnePart ["g.000"] (partName "g" 0) = none :=
  ⟨⟨by decide, by decide⟩,
    C9_rebuild_removes_every_consumed_part "g" 1 fsOnePart [5] ["g.000"] (by decide) 0
      (by decide)⟩

/-- C6: for every `itemSize ≥ 0` and `chunkSizeBytes > 0`, the planned
part count computed by `FileSpliter.Prepare` equals
`max(1, ceil(itemSize / chunkSizeBytes))`; in particular an empty source
plans exactly one part (and the embedding is a total pure function, as
`Prepare` only reads `os.path.getsize` and assigns the object's own
fields). -/
theorem C6_prepare_plans_max_one_ceil (S C : ℕ) (hC : 0 < C) :
    FileSpliter.Prepare S C = max 1 ⌈(S : ℚ) / (C : ℚ)⌉
    ∧ FileSpliter.Prepare 0 C = 1 := by
  constructor
  · unfold FileSpliter.Prepare
    by_cases h : C ≥ S
    · rw [if_pos h]
      have hCq : (0 : ℚ) < (C : ℚ) := by exact_mod_cast hC
      have hq : ((S : ℚ) / (C : ℚ)) ≤ 1 := by
        rw [div_le_one hCq]
        exact_mod_cast h
      have hle : ⌈(S : ℚ) / (C : ℚ)⌉ ≤ 1 := by
        apply Int.ceil_le.mpr
        push_cast
        exact hq
      exact (max_eq_left hle).symm
    · rw [if_neg h]
      push_neg at h
      have hCq : (0 : ℚ) < (C : ℚ) := by exact_mod_cast hC
      have hSq : (0 : ℚ) < (S : ℚ) := by
        have : 0 < S := lt_trans hC h
        exact_mod_cast this
      have hpos : (0 : ℚ) < (S : ℚ) / (C : ℚ) := div_pos hSq hCq
      have hone : 1 ≤ ⌈(S : ℚ) / (C : ℚ)⌉ := Int.one_le_ceil_iff.mpr hpos
      exact (max_eq_right hone).symm
  · unfold FileSpliter.Prepare
    rw [if_pos (Nat.zero_le C)]

/-- C6 witness: a 5-byte item with chunk size 2 plans
`max(1, ⌈5/2⌉) = 3` parts. -/
theorem C6_prepare_plans_max_one_ceil_witness :
    0 < 2
    ∧ (FileSpliter.Prepare 5 2 = max 1 ⌈((5 : ℕ) : ℚ) / ((2 : ℕ) : ℚ)⌉
        ∧ FileSpliter.Prepare 0 2 = 1) :=
  ⟨by norm_num, C6_prepare_plans_max_one_ceil 5 2 (by norm_num)⟩

/-- C7 counterexample: the claimed 3-digit left-zero-padded naming fails
beyond nine parts. Splitting a 10-byte `.zip` source into 10 one-byte
chunks produces the names `f.zip.001 … f.zip.009, f.zip.0010` — the tenth
part is `".00" ++ "10"`, not the 3-digit form `f.zip.010`, so the claimed
name list differs from the produced one (and lexical sorting would place
`f.zip.0010` before `f.zip.002`). -/
theorem C7_counterexample_tenth_part_not_three_digit :
    (((FileSpliter.Split "f.zip" (List.replicate 10 0) 1).getD []).map Prod.fst
      ≠ (List.range 10).map (fun i => "f.zip" ++ ("." ++ pad3 (i + 1))))
    ∧ partName "f.zip" 10 = "f.zip.0010" := by
  constructor
  · decide
  · decide

theorem partName_pad3_of_le_nine (base : String) (k : ℕ) (h1 : 1 ≤ k) (h9 : k ≤ 9) :
    partName base k = base ++ ("." ++ pad3 k) := by
  unfold partName
  rw [string_append_assoc]
  congr 1
  interval_cases k <;> decide

/-- C7 amended: chunk ordinals start at 1 and are contiguous with no
gaps, the suffix being `".00" ++ toString ordinal` appended to the input
file's name (`name.zip.<suffix>` for archived sources, since those are
split from `name.zip`, and `name.<suffix>` for already-archived sources);
while the split produces at most 9 parts this coincides with the 3-digit
left-zero-padded scheme `name.zip.001, name.zip.002, …`, and the ordinal
is then derivable from the name by lexical sort. From the 10th part on
the suffix has four or more digits and the 3-digit scheme no longer
holds. -/
theorem C7_amended_names_padded_up_to_nine_parts (base : String) (data : List ℕ)
    (C : ℕ) (_hC : 0 < C) (hd : data ≠ []) (hparts : (chunkify C data).length ≤ 9) :
    ((FileSpliter.Split base data C).getD []).map Prod.fst
      = (List.range (chunkify C data).length).map (fun i => base ++ ("." ++ pad3 (i + 1))) := by
  unfold FileSpliter.Split
  rw [if_neg (by simpa using hd)]
  rw [Option.getD_some, List.map_map]
  show List.map (Prod.fst ∘ fun p : ℕ × List ℕ => (partName base (p.1 + 1), p.2))
        (chunkify C data).enum
      = (List.range (chunkify C data).length).map (fun i => base ++ ("." ++ pad3 (i + 1)))
  have hcomp : (Prod.fst ∘ fun p : ℕ × List ℕ => (partName base (p.1 + 1), p.2))
      = ((fun i => partName base (i + 1)) ∘ Prod.fst) := rfl
  rw [hcomp, ← List.map_map, List.enum_eq_enumFrom, List.enumFrom_map_fst,
    ← List.range_eq_range']
  apply List.map_congr_left
  intro i hi
  have hilt : i < (chunkify C data).length := List.mem_range.mp hi
  exact partName_pad3_of_le_nine base (i + 1) (by omega) (by omega)

/-- C7 amended witness: splitting a 2-byte source into two 1-byte parts
yields exactly the 3-digit padded names `g.001`, `g.002`. -/
theorem C7_amended_names_witness :
    (0 < 1 ∧ ([5, 6] : List ℕ) ≠ [] ∧ (chunkify 1 [5, 6]).length ≤ 9)
    ∧ ((FileSpliter.Split "g" [5, 6] 1).getD []).map Prod.fst
        = (List.range (chunkify 1 [5, 6]).length).map (fun i => "g" ++ ("." ++ pad3 (i + 1))) :=
  ⟨⟨by decide, by decide, by decide⟩,
    C7_amended_names_padded_up_to_nine_parts "g" [5, 6] 1 (by decide) (by decide) (by decide)⟩
